import Mathlib

/-!
Verification development for the conversation exchange engine of the
mcp-server-for-copilot repository (src/copilot_studio/copilot_agent.py).
The Python methods of class CopilotAgent are shallowly embedded as pure
Lean functions; the wire client (DirectLineClient) collaborator is
modelled by the data it returns, and every effectful operation also
returns the trace of wire primitives it invoked.
-/

namespace CopilotStudio

mutual

/-- JSON-like values standing for the opaque payloads the code copies
around without inspecting them: adaptive card responses, adaptive card
content, and suggested action objects. -/
inductive Json where
  | null : Json
  | str : String → Json
  | obj : JFields → Json
deriving DecidableEq, Repr

/-- Field list of a JSON object. -/
inductive JFields where
  | nil : JFields
  | cons : String → Json → JFields → JFields
deriving DecidableEq, Repr

end

/-- Truthiness of an optional string as Python evaluates it: None and the
empty string are falsy, every other string is truthy. -/
def strTruthy : Option String → Bool
  | none => false
  | some s => !s.isEmpty

/-- Truthiness of an optional dictionary (modelled as an association
list): None and the empty dict are falsy. -/
def dictTruthy : Option (List (String × Json)) → Bool
  | none => false
  | some d => !d.isEmpty

/-- Lookup of a key in a dictionary modelled as an association list;
isSome of the result is Python key membership. -/
def assocLookup (d : List (String × Json)) (k : String) : Option Json :=
  (d.find? (fun kv => kv.1 == k)).map (fun kv => kv.2)

/-- The "from" object of an inbound activity; both fields are read with
dict .get, hence optional. -/
structure Sender where
  id : Option String := none
  role : Option String := none
deriving DecidableEq, Repr

/-- Default sender used when the "from" key is absent: the Python code
reads activity.get("from", \x7b\x7d). -/
def emptySender : Sender := {}

/-- The "suggestedActions" object of an activity; its "actions" key is
read with .get and may be absent. -/
structure SuggestedActions where
  actions : Option (List Json) := none
deriving DecidableEq, Repr

/-- One attachment of an activity; both keys are read with .get. -/
structure Attachment where
  contentType : Option String := none
  content : Option Json := none
deriving DecidableEq, Repr

/-- An inbound DirectLine activity: exactly the keys copilot_agent.py
probes, each optional because the code accesses them with dict .get. -/
structure Activity where
  type : Option String := none
  name : Option String := none
  from_ : Option Sender := none
  text : Option String := none
  suggestedActions : Option SuggestedActions := none
  attachments : Option (List Attachment) := none
deriving DecidableEq, Repr

/-- One response of the wire client's get_activities primitive: a dict
that may carry "watermark" and "activities" keys. -/
structure GetActivitiesResponse where
  watermark : Option String := none
  activities : Option (List Activity) := none
deriving DecidableEq, Repr

/-- The outbound payload dict built by build_payload. -/
structure Payload where
  type : String
  fromId : String
  text : Option String := none
  value : Option Json := none
  conversationId : Option String := none
deriving DecidableEq, Repr

/-- Translation of CopilotAgent.build_payload: the base dict always holds
type "message" and from id "user"; the "value" branch is taken when
message_data is truthy and contains the "adaptive_card_response" key,
otherwise "text" is set to message; "conversationId" is added only when
conversation_id is truthy. -/
def build_payload (message : String) (message_data : Option (List (String × Json)))
    (conversation_id : Option String) : Payload :=
  let base : Payload := { type := "message", fromId := "user" }
  let p :=
    if dictTruthy message_data
        && (match message_data with
            | some md => (assocLookup md "adaptive_card_response").isSome
            | none => false) then
      { base with
          value := match message_data with
            | some md => assocLookup md "adaptive_card_response"
            | none => none }
    else
      { base with text := some message }
  if strTruthy conversation_id then { p with conversationId := conversation_id } else p

/-- Error conditions raised by CopilotAgent; the source raises plain
Exception values carrying the messages "DirectLine client is not
initialized" and "Invalid response from DirectLine Bot". -/
inductive DLError where
  | notInitialized : DLError
  | invalidResponse : DLError
deriving DecidableEq, Repr

/-- Wire client primitives, recorded in a call trace by the effectful
operations of the model. -/
inductive Prim where
  | start_session : Prim
  | post_activity : String → Payload → Prim
  | get_activities : String → Option String → Prim
deriving DecidableEq, Repr

/-- Predicate picking the get_activities calls out of a trace. -/
def isGetCall : Prim → Bool
  | .get_activities _ _ => true
  | _ => false

/-- Model of the DirectLine wire client: the conversation id its
start_conversation returns and the successive responses its
get_activities yields, one per poll iteration. -/
structure DirectLineClient where
  conversation_id : String
  responses : List GetActivitiesResponse
deriving DecidableEq, Repr

/-- Model of the CopilotAgent object; directline_client is optional
because the source guards against it being None. -/
structure CopilotAgent where
  id : String
  name : String
  description : String
  directline_client : Option DirectLineClient
deriving DecidableEq, Repr

/-- Result of an effectful operation: success, a raised error, or
divergence (the unbounded polling loop never seeing a completion signal
within the modelled response stream). -/
inductive Outcome (α : Type) where
  | ok : α → Outcome α
  | error : DLError → Outcome α
  | diverge : Outcome α
deriving DecidableEq, Repr

/-- Translation of CopilotAgent.start_conversation, paired with the trace
of wire primitives invoked. -/
def start_conversation (agent : CopilotAgent) : List Prim × Outcome String :=
  match agent.directline_client with
  | none => ([], .error .notInitialized)
  | some c => ([.start_session], .ok c.conversation_id)

/-- Turn completion test for one activity, the body of the any(...) call
in post_message_and_poll: a DynamicPlanFinished event, or a message whose
sender role is bot. -/
def isCompletionActivity (a : Activity) : Bool :=
  (a.type == some "event" && a.name == some "DynamicPlanFinished")
    || (a.type == some "message" && (a.from_.getD emptySender).role == some "bot")

/-- A fetched batch ends the polling loop when any of its activities is a
completion signal; a missing "activities" key reads as the empty list. -/
def hasCompletion (d : GetActivitiesResponse) : Bool :=
  (d.activities.getD []).any isCompletionActivity

/-- Watermark update of one loop iteration: replace the cursor when the
response carries a "watermark" key, keep it otherwise. -/
def updWatermark (w : Option String) (d : GetActivitiesResponse) : Option String :=
  match d.watermark with
  | some v => some v
  | none => w

/-- The polling loop of post_message_and_poll, unrolled over the modelled
stream of get_activities responses: each iteration fetches the next
response, updates the watermark cursor, and stops at the first batch
holding a completion signal, returning that entire batch together with
the current cursor. Exhausting the finite stream models the loop polling
forever. -/
def pollLoop (cid : String) :
    List GetActivitiesResponse → Option String →
      List Prim × Outcome (GetActivitiesResponse × Option String)
  | [], _ => ([], .diverge)
  | d :: rest, w =>
    let call := Prim.get_activities cid w
    let w' := updWatermark w d
    if hasCompletion d then
      ([call], .ok (d, w'))
    else
      let r := pollLoop cid rest w'
      (call :: r.1, r.2)

/-- The dict returned by post_message_and_poll: "data" holds the
collected batch and "watermark" the final cursor. -/
structure PollResult where
  data : Option GetActivitiesResponse
  watermark : Option String
deriving DecidableEq, Repr

/-- Translation of CopilotAgent.post_message_and_poll: guard on the
client, build the payload, post it, then run the polling loop. -/
def post_message_and_poll (agent : CopilotAgent) (message : String)
    (conversation_id : String) (watermark : Option String)
    (message_data : Option (List (String × Json))) : List Prim × Outcome PollResult :=
  match agent.directline_client with
  | none => ([], .error .notInitialized)
  | some c =>
    let payload := build_payload message message_data (some conversation_id)
    let r := pollLoop conversation_id c.responses watermark
    (Prim.post_activity conversation_id payload :: r.1,
      match r.2 with
      | .ok dw => .ok ⟨some dw.1, dw.2⟩
      | .error e => .error e
      | .diverge => .diverge)

/-- The structured result dict built by parse_response. -/
structure ParsedResult where
  text : String
  adaptive_card : Option Json
  suggested_actions : List Json
  watermark : Option String
deriving DecidableEq, Repr

/-- The skip test of the parse loop, negated: an activity contributes
only when it is a message, its sender id is not "user", and its sender
role is "bot". -/
def botMessageFilter (a : Activity) : Bool :=
  a.type == some "message"
    && !((a.from_.getD emptySender).id == some "user")
    && (a.from_.getD emptySender).role == some "bot"

/-- Effective suggested actions of an activity: the two-step probe
activity.get("suggestedActions", \x7b\x7d).get("actions", []). -/
def actionsOf (a : Activity) : List Json :=
  ((a.suggestedActions.getD {}).actions).getD []

/-- One iteration of the parse loop over a single activity: skip
non-contributing activities, otherwise overwrite text when the "text"
key is present, suggested actions when non-empty, and the adaptive card
when the first attachment carries the adaptive card content type. -/
def parseStep (r : ParsedResult) (a : Activity) : ParsedResult :=
  if !(botMessageFilter a) then r
  else
    let r1 := match a.text with
      | some t => { r with text := t }
      | none => r
    let sa := actionsOf a
    let r2 := if !sa.isEmpty then { r1 with suggested_actions := sa } else r1
    match a.attachments.getD [] with
    | [] => r2
    | att :: _ =>
      if att.contentType == some "application/vnd.microsoft.card.adaptive" then
        { r2 with adaptive_card := some (att.content.getD (Json.obj .nil)) }
      else r2

/-- The argument of parse_response: the dict assembled by
post_message_and_poll, with a "data" key (possibly absent) and a
"watermark" key. The outer Option models passing None. -/
structure ResponseData where
  data : Option GetActivitiesResponse
  watermark : Option String
deriving DecidableEq, Repr

/-- Default used for a missing "data" key: response_data.get("data", \x7b\x7d). -/
def emptyData : GetActivitiesResponse := {}

/-- Empty result the parse loop starts from, carrying the input
watermark through unchanged. -/
def initResult (w : Option String) : ParsedResult :=
  { text := "", adaptive_card := none, suggested_actions := [], watermark := w }

/-- Translation of CopilotAgent.parse_response: reject an absent input or
one whose data carries no "activities" key, then fold the parse loop over
the activities in batch order. -/
def parse_response (response_data : Option ResponseData) : Except DLError ParsedResult :=
  match response_data with
  | none => .error .invalidResponse
  | some rd =>
    match (rd.data.getD emptyData).activities with
    | none => .error .invalidResponse
    | some acts => .ok (acts.foldl parseStep (initResult rd.watermark))

/-- Convenience constructor of a well-formed parse_response input holding
a given activity batch and watermark. -/
def mkInput (acts : List Activity) (w : Option String) : Option ResponseData :=
  some ⟨some { watermark := none, activities := some acts }, w⟩

/-- Parsed result with the conversation id attached, as returned by
query. -/
structure QueryResult where
  text : String
  adaptive_card : Option Json
  suggested_actions : List Json
  watermark : Option String
  conversation_id : String
deriving DecidableEq, Repr

/-- Translation of CopilotAgent.query: mint a conversation id via
start_conversation when the supplied one is falsy (None or empty), post
and poll, parse the response, and attach the conversation id. -/
def query (agent : CopilotAgent) (message : String)
    (conversation_id : Option String) (watermark : Option String)
    (message_data : Option (List (String × Json))) : List Prim × Outcome QueryResult :=
  match (if strTruthy conversation_id then ([], .ok (conversation_id.getD ""))
         else start_conversation agent) with
  | (tr1, .error e) => (tr1, .error e)
  | (tr1, .diverge) => (tr1, .diverge)
  | (tr1, .ok cid) =>
    let step2 := post_message_and_poll agent message cid watermark message_data
    (tr1 ++ step2.1,
      match step2.2 with
      | .error e => .error e
      | .diverge => .diverge
      | .ok pr =>
        match parse_response (some ⟨pr.data, pr.watermark⟩) with
        | .error e => .error e
        | .ok p => .ok ⟨p.text, p.adaptive_card, p.suggested_actions, p.watermark, cid⟩)

/-- Modelled from the spec's words, for comparison with the loop cursor:
the watermark of the most recent response that carried a "watermark"
field, if any response did. -/
def lastCarried (rs : List GetActivitiesResponse) : Option String :=
  rs.reverse.findSome? (fun d => d.watermark)

/-- Cursor value after the loop has processed a list of responses
starting from an initial watermark. -/
def wAfter (w : Option String) (rs : List GetActivitiesResponse) : Option String :=
  rs.foldl updWatermark w

/-- Derived reading of build_payload's card branch: the card response
supplied through message_data, when the "adaptive_card_response" key is
present. -/
def cardResponseOf (message_data : Option (List (String × Json))) : Option Json :=
  match message_data with
  | some md => assocLookup md "adaptive_card_response"
  | none => none

/-! Concrete data used by witnesses and counterexamples. -/

/-- A bot message activity carrying a text reply. -/
def botReply : Activity :=
  { type := some "message", from_ := some { id := some "bot-1", role := some "bot" },
    text := some "hello" }

/-- A second bot message activity with a different text. -/
def botReply2 : Activity :=
  { type := some "message", from_ := some { id := some "bot-1", role := some "bot" },
    text := some "second" }

/-- A user echo activity, filtered out by the parser. -/
def userEcho : Activity :=
  { type := some "message", from_ := some { id := some "user" },
    text := some "echo" }

/-- A get_activities response without any completion signal and without a
watermark. -/
def quietResponse : GetActivitiesResponse :=
  { watermark := none, activities := some [] }

/-- A get_activities response ending the poll: a bot message batch with a
fresh watermark. -/
def demoResponse : GetActivitiesResponse :=
  { watermark := some "w1", activities := some [botReply] }

/-- A wire client minting conversation id "minted-id" and answering one
completed-turn batch. -/
def demoClient : DirectLineClient := ⟨"minted-id", [demoResponse]⟩

/-- A fully configured agent over demoClient. -/
def demoAgent : CopilotAgent := ⟨"a", "n", "d", some demoClient⟩

/-! Helper lemmas shared by the claim theorems. -/

/-- A non-empty string is truthy. -/
theorem strTruthy_of_ne (s : String) (h : s ≠ "") : strTruthy (some s) = true := by
  have he : s.isEmpty = false := by
    cases he : s.isEmpty
    · rfl
    · exact absurd ((String.isEmpty_iff s).mp he) h
  simp [strTruthy, he]

/-- An activity failing the bot message filter leaves the parse result
unchanged. -/
theorem parseStep_skip (r : ParsedResult) (b : Activity)
    (hb : botMessageFilter b = false) : parseStep r b = r := by
  simp [parseStep, hb]

/-- Folding the parse loop over a batch with no contributing activity
returns the initial result. -/
theorem parse_foldl_skip (acts : List Activity) (r : ParsedResult)
    (h : ∀ a ∈ acts, botMessageFilter a = false) :
    acts.foldl parseStep r = r := by
  induction acts generalizing r with
  | nil => rfl
  | cons a acts ih =>
    rw [List.foldl_cons, parseStep_skip r a (h a (List.mem_cons_self a acts))]
    exact ih r fun x hx => h x (List.mem_cons_of_mem a hx)

/-- The parse loop never touches the watermark field. -/
theorem parseStep_watermark (r : ParsedResult) (a : Activity) :
    (parseStep r a).watermark = r.watermark := by
  unfold parseStep
  cases hb : botMessageFilter a
  · simp
  · simp only [Bool.not_true, Bool.false_eq_true, if_false]
    cases a.text <;> (try split) <;> (try split) <;> (try split) <;> simp_all

/-- The parse fold carries the initial watermark through unchanged. -/
theorem parse_foldl_watermark (acts : List Activity) (r : ParsedResult) :
    (acts.foldl parseStep r).watermark = r.watermark := by
  induction acts generalizing r with
  | nil => rfl
  | cons a acts ih => rw [List.foldl_cons, ih, parseStep_watermark]

/-- Text written by a contributing activity carrying a "text" key. -/
theorem parseStep_text (r : ParsedResult) (a : Activity) (t : String)
    (hf : botMessageFilter a = true) (ht : a.text = some t) :
    (parseStep r a).text = t := by
  unfold parseStep
  rw [hf, ht]
  simp only [Bool.not_true, Bool.false_eq_true, if_false]
  (try split) <;> (try split) <;> (try split) <;> simp_all

/-- Suggested actions written by a contributing activity with a non-empty
actions list. -/
theorem parseStep_actions (r : ParsedResult) (a : Activity)
    (hf : botMessageFilter a = true) (hsa : actionsOf a ≠ []) :
    (parseStep r a).suggested_actions = actionsOf a := by
  unfold parseStep
  rw [hf]
  simp only [Bool.not_true, Bool.false_eq_true, if_false]
  have he : (actionsOf a).isEmpty = false := by
    cases hl : actionsOf a
    · exact absurd hl hsa
    · rfl
  rw [he]
  cases a.text <;> (try split) <;> (try split) <;> (try split) <;> simp_all

/-- Adaptive card written by a contributing activity whose first
attachment carries the adaptive card content type. -/
theorem parseStep_card (r : ParsedResult) (a : Activity)
    (att : Attachment) (tl : List Attachment)
    (hf : botMessageFilter a = true) (hatt : a.attachments = some (att :: tl))
    (hct : att.contentType = some "application/vnd.microsoft.card.adaptive") :
    (parseStep r a).adaptive_card = some (att.content.getD (Json.obj .nil)) := by
  unfold parseStep
  rw [hf, hatt]
  simp only [Bool.not_true, Bool.false_eq_true, if_false, Option.getD_some]
  rw [hct]
  cases a.text <;> (try split) <;> (try split) <;> simp_all

/-- Unfolding of wAfter over a cons cell. -/
theorem wAfter_cons (w : Option String) (d : GetActivitiesResponse)
    (rs : List GetActivitiesResponse) :
    wAfter w (d :: rs) = wAfter (updWatermark w d) rs := rfl

/-- Unfolding of lastCarried over a cons cell: a carried watermark later
in the list wins over the head. -/
theorem lastCarried_cons (d : GetActivitiesResponse)
    (rs : List GetActivitiesResponse) :
    lastCarried (d :: rs) =
      match lastCarried rs with
      | some v => some v
      | none => d.watermark := by
  unfold lastCarried
  rw [List.reverse_cons, List.findSome?_append]
  cases h : List.findSome? (fun d => d.watermark) rs.reverse <;>
    cases hd : d.watermark <;> simp [List.findSome?_cons, hd, Option.or]

/-- The loop cursor after processing a list of responses equals the most
recent carried watermark, or the initial cursor when none was carried. -/
theorem wAfter_eq_lastCarried (rs : List GetActivitiesResponse) (w : Option String) :
    wAfter w rs = match lastCarried rs with | some v => some v | none => w := by
  induction rs generalizing w with
  | nil => rfl
  | cons d rs ih =>
    rw [wAfter_cons, lastCarried_cons, ih]
    cases h : lastCarried rs <;> cases hd : d.watermark <;>
      simp [updWatermark, hd]

/-- Processing a prefix free of completion signals only advances the
cursor: the loop outcome agrees with starting past the prefix, and the
trace grows by exactly one fetch per prefix response. -/
theorem pollLoop_prefix (cid : String) (pre rest : List GetActivitiesResponse)
    (w : Option String) (h : ∀ x ∈ pre, hasCompletion x = false) :
    (pollLoop cid (pre ++ rest) w).2 = (pollLoop cid rest (wAfter w pre)).2 ∧
    (pollLoop cid (pre ++ rest) w).1.length =
      pre.length + (pollLoop cid rest (wAfter w pre)).1.length := by
  induction pre generalizing w with
  | nil => simp [wAfter]
  | cons d pre ih =>
    have hd : hasCompletion d = false := h d (List.mem_cons_self d pre)
    have h' : ∀ x ∈ pre, hasCompletion x = false :=
      fun x hx => h x (List.mem_cons_of_mem d hx)
    obtain ⟨h1, h2⟩ := ih (updWatermark w d) h'
    rw [wAfter_cons]
    constructor
    · rw [List.cons_append]
      simpa [pollLoop, hd] using h1
    · rw [List.cons_append]
      simp only [pollLoop, hd, Bool.false_eq_true, if_false, List.length_cons]
      omega

/-- Every call recorded by the polling loop is a get_activities call. -/
theorem pollLoop_trace_get (cid : String) (rs : List GetActivitiesResponse)
    (w : Option String) : ∀ p ∈ (pollLoop cid rs w).1, isGetCall p = true := by
  induction rs generalizing w with
  | nil => intro p hp; simp [pollLoop] at hp
  | cons d rest ih =>
    intro p hp
    cases hd : hasCompletion d
    · simp only [pollLoop, hd, Bool.false_eq_true, if_false, List.mem_cons] at hp
      rcases hp with h1 | h1
      · subst h1; rfl
      · exact ih _ p h1
    · simp only [pollLoop, hd, if_true, List.mem_cons, List.not_mem_nil, or_false] at hp
      subst hp; rfl

/-- Evaluation of parse_response on a well-formed input: the parse loop
folded over the batch. -/
theorem parse_response_mkInput (acts : List Activity) (w : Option String) :
    parse_response (mkInput acts w) = .ok (acts.foldl parseStep (initResult w)) := rfl

/-- Evaluation of parse_response on a present input dict. -/
theorem parse_response_some (x : ResponseData) :
    parse_response (some x) =
      match (x.data.getD emptyData).activities with
      | none => .error .invalidResponse
      | some acts => .ok (acts.foldl parseStep (initResult x.watermark)) := rfl

/-- When every response lacks a "watermark" key, no watermark is
carried. -/
theorem lastCarried_none (rs : List GetActivitiesResponse)
    (h : ∀ x ∈ rs, x.watermark = none) : lastCarried rs = none := by
  induction rs with
  | nil => rfl
  | cons d rs ih =>
    rw [lastCarried_cons, ih (fun x hx => h x (List.mem_cons_of_mem d hx))]
    simp [h d (List.mem_cons_self d rs)]

/-- Outcome and trace of post_message_and_poll on a stream whose first
completion signal sits in batch d: the loop returns batch d whole with
the cursor updated through all processed responses, the trace is the
posted activity followed by the loop's fetches, and the loop fetched
once per processed batch. -/
theorem post_message_and_poll_outcome
    (agentId agentName agentDescr conv message cid : String) (w : Option String)
    (md : Option (List (String × Json)))
    (pre rest : List GetActivitiesResponse) (d : GetActivitiesResponse)
    (hpre : ∀ x ∈ pre, hasCompletion x = false)
    (hd : hasCompletion d = true) :
    (post_message_and_poll ⟨agentId, agentName, agentDescr, some ⟨conv, pre ++ d :: rest⟩⟩
        message cid w md).2 = .ok ⟨some d, updWatermark (wAfter w pre) d⟩ ∧
    (post_message_and_poll ⟨agentId, agentName, agentDescr, some ⟨conv, pre ++ d :: rest⟩⟩
        message cid w md).1 =
      Prim.post_activity cid (build_payload message md (some cid)) ::
        (pollLoop cid (pre ++ d :: rest) w).1 ∧
    (pollLoop cid (pre ++ d :: rest) w).1.length = pre.length + 1 := by
  obtain ⟨h1, h2⟩ := pollLoop_prefix cid pre (d :: rest) w hpre
  have hstop : pollLoop cid (d :: rest) (wAfter w pre) =
      ([Prim.get_activities cid (wAfter w pre)],
        .ok (d, updWatermark (wAfter w pre) d)) := by
    simp [pollLoop, hd]
  refine ⟨?_, rfl, ?_⟩
  · show (match (pollLoop cid (pre ++ d :: rest) w).2 with
      | .ok dw => Outcome.ok (⟨some dw.1, dw.2⟩ : PollResult)
      | .error e => .error e
      | .diverge => .diverge) = _
    rw [h1, hstop]
  · rw [h2, hstop]
    simp

/-- Evaluation of query on a supplied non-empty conversation id: the
minting branch is skipped and the poll result is parsed with the supplied
id attached. -/
theorem query_truthy_cid (agent : CopilotAgent) (message : String) (cid : String)
    (hcid : cid ≠ "") (w : Option String) (md : Option (List (String × Json))) :
    query agent message (some cid) w md =
      ((post_message_and_poll agent message cid w md).1,
        match (post_message_and_poll agent message cid w md).2 with
        | .error e => .error e
        | .diverge => .diverge
        | .ok pr =>
          match parse_response (some ⟨pr.data, pr.watermark⟩) with
          | .error e => .error e
          | .ok p => .ok ⟨p.text, p.adaptive_card, p.suggested_actions, p.watermark, cid⟩) := by
  unfold query
  rw [strTruthy_of_ne cid hcid]
  simp

/-! Claim theorems. -/

/-- C3: exactly one of text and value is present in the payload built by
build_payload: a supplied card response becomes the value field with text
omitted regardless of message, and otherwise text equals message with
value omitted. -/
theorem build_payload_text_value_exclusive (message : String)
    (md : Option (List (String × Json))) (cid : Option String) :
    (∀ v, cardResponseOf md = some v →
      (build_payload message md cid).value = some v ∧
      (build_payload message md cid).text = none) ∧
    (cardResponseOf md = none →
      (build_payload message md cid).text = some message ∧
      (build_payload message md cid).value = none) ∧
    (build_payload message md cid).value.isSome =
      !(build_payload message md cid).text.isSome := by
  unfold build_payload cardResponseOf
  cases md with
  | none =>
    simp only [dictTruthy, Bool.false_and, if_false]
    split <;> simp
  | some l =>
    cases hk : assocLookup l "adaptive_card_response" with
    | none =>
      simp only [dictTruthy, hk, Option.isSome_none, Bool.and_false, if_false]
      split <;> simp
    | some v =>
      have hne : l.isEmpty = false := by
        cases l
        · simp [assocLookup] at hk
        · rfl
      simp only [dictTruthy, hne, hk, Option.isSome_some, Bool.not_false,
        Bool.and_true, Bool.true_and, if_true]
      split <;> simp

/-- C3 witness: a concrete card response lands in value with text
omitted, and a concrete plain message lands in text with value
omitted. -/
theorem build_payload_text_value_exclusive_witness :
    cardResponseOf (some [("adaptive_card_response", Json.str "v")]) = some (Json.str "v") ∧
    (build_payload "m" (some [("adaptive_card_response", Json.str "v")]) (some "c")).value =
      some (Json.str "v") ∧
    (build_payload "m" (some [("adaptive_card_response", Json.str "v")]) (some "c")).text = none ∧
    cardResponseOf none = none ∧
    (build_payload "m" none (some "c")).text = some "m" ∧
    (build_payload "m" none (some "c")).value = none := by
  refine ⟨by decide, ?_, ?_, by decide, ?_, ?_⟩
  · exact ((build_payload_text_value_exclusive "m"
      (some [("adaptive_card_response", Json.str "v")]) (some "c")).1 (Json.str "v")
      (by decide)).1
  · exact ((build_payload_text_value_exclusive "m"
      (some [("adaptive_card_response", Json.str "v")]) (some "c")).1 (Json.str "v")
      (by decide)).2
  · exact ((build_payload_text_value_exclusive "m" none (some "c")).2.1 (by decide)).1
  · exact ((build_payload_text_value_exclusive "m" none (some "c")).2.1 (by decide)).2

/-- C10: build_payload with the empty string as conversation id omits the
conversationId field entirely, exactly as when the id is absent: the
presence test is truthiness, not an is-present check. -/
theorem build_payload_empty_conversation_id (message : String)
    (md : Option (List (String × Json))) :
    build_payload message md (some "") = build_payload message md none ∧
    (build_payload message md (some "")).conversationId = none := by
  have h0 : strTruthy (some "") = false := by decide
  have h1 : strTruthy none = false := rfl
  constructor
  · unfold build_payload
    rw [h0, h1]
    simp only [Bool.false_eq_true, if_false]
  · unfold build_payload
    rw [h0]
    simp only [Bool.false_eq_true, if_false]
    split <;> rfl

/-- C5: parse_response fails, always with the InvalidResponse condition,
exactly when its input carries no activity collection (the input is
absent or its data has no "activities" key); a present batch in which no
activity passes the bot message filter is not an error and yields the
empty result. -/
theorem parse_response_invalid_iff (rd : Option ResponseData) (w : Option String) :
    ((∃ e, parse_response rd = .error e) ↔
      (rd = none ∨ ∃ x, rd = some x ∧ (x.data.getD emptyData).activities = none)) ∧
    (∀ e, parse_response rd = .error e → e = .invalidResponse) ∧
    (∀ acts : List Activity, (∀ a ∈ acts, botMessageFilter a = false) →
      parse_response (mkInput acts w) =
        .ok { text := "", adaptive_card := none, suggested_actions := [],
              watermark := w }) := by
  refine ⟨?_, ?_, ?_⟩
  · cases rd with
    | none => simp [parse_response]
    | some x =>
      cases hx : (x.data.getD emptyData).activities with
      | none => simp [parse_response, hx]
      | some acts => simp [parse_response, hx]
  · intro e he
    cases rd with
    | none =>
      unfold parse_response at he
      exact (Except.error.inj he).symm
    | some x =>
      rw [parse_response_some] at he
      cases hx : (x.data.getD emptyData).activities with
      | none =>
        rw [hx] at he
        exact (Except.error.inj he).symm
      | some acts =>
        rw [hx] at he
        exact absurd he (by simp)
  · intro acts h
    rw [parse_response_mkInput, parse_foldl_skip acts _ h]
    rfl

/-- C5 witness: a None input fails with InvalidResponse, and a batch
holding only a user echo parses to the empty result. -/
theorem parse_response_invalid_iff_witness :
    parse_response none = .error .invalidResponse ∧
    botMessageFilter userEcho = false ∧
    parse_response (mkInput [userEcho] (some "w3")) =
      .ok { text := "", adaptive_card := none, suggested_actions := [],
            watermark := some "w3" } := by
  refine ⟨rfl, by decide, ?_⟩
  exact (parse_response_invalid_iff none (some "w3")).2.2 [userEcho]
    (by intro a ha; rw [List.mem_singleton] at ha; subst ha; decide)

/-- C8: parse_response is deterministic and idempotent on well-formed
input: two calls on the same activity batch with the same watermark
return results identical in every field. -/
theorem parse_response_deterministic (acts : List Activity) (w : Option String)
    (r₁ r₂ : ParsedResult)
    (h₁ : parse_response (mkInput acts w) = .ok r₁)
    (h₂ : parse_response (mkInput acts w) = .ok r₂) :
    r₁.text = r₂.text ∧ r₁.adaptive_card = r₂.adaptive_card ∧
    r₁.suggested_actions = r₂.suggested_actions ∧
    r₁.watermark = r₂.watermark ∧ r₁ = r₂ := by
  have h := h₁.symm.trans h₂
  have h' := Except.ok.inj h
  subst h'
  exact ⟨rfl, rfl, rfl, rfl, rfl⟩

/-- C8 witness: the determinism theorem applied to a concrete bot
reply batch. -/
theorem parse_response_deterministic_witness :
    parse_response (mkInput [botReply] (some "w5")) =
      .ok { text := "hello", adaptive_card := none, suggested_actions := [],
            watermark := some "w5" } ∧
    ({ text := "hello", adaptive_card := none, suggested_actions := [],
       watermark := some "w5" } : ParsedResult) =
      { text := "hello", adaptive_card := none, suggested_actions := [],
        watermark := some "w5" } := by
  refine ⟨rfl, ?_⟩
  exact (parse_response_deterministic [botReply] (some "w5") _ _
    rfl rfl).2.2.2.2

/-- C2: parse_response skips every activity failing the bot message
filter (wrong type, sender id "user", or sender role other than "bot");
contributing activities are folded in batch order, a later one
overwriting text when present, suggested actions when non-empty, and the
adaptive card when its first attachment qualifies; in particular for two
bot message activities with different text the result text equals the
second activity's text. -/
theorem parse_response_filter_last_write_wins (w : Option String) :
    (∀ (l₁ l₂ : List Activity) (b : Activity), botMessageFilter b = false →
      parse_response (mkInput (l₁ ++ b :: l₂) w) =
        parse_response (mkInput (l₁ ++ l₂) w)) ∧
    (∀ (acts : List Activity) (a : Activity), botMessageFilter a = true →
      ∃ r, parse_response (mkInput (acts ++ [a]) w) = .ok r ∧
        (∀ t, a.text = some t → r.text = t) ∧
        (actionsOf a ≠ [] → r.suggested_actions = actionsOf a) ∧
        (∀ att tl, a.attachments = some (att :: tl) →
          att.contentType = some "application/vnd.microsoft.card.adaptive" →
          r.adaptive_card = some (att.content.getD (Json.obj .nil)))) ∧
    (∀ (a₁ a₂ : Activity) (t₁ t₂ : String),
      botMessageFilter a₁ = true → botMessageFilter a₂ = true →
      a₁.text = some t₁ → a₂.text = some t₂ →
      ∃ r, parse_response (mkInput [a₁, a₂] w) = .ok r ∧ r.text = t₂) := by
  refine ⟨?_, ?_, ?_⟩
  · intro l₁ l₂ b hb
    rw [parse_response_mkInput, parse_response_mkInput]
    congr 1
    rw [List.foldl_append, List.foldl_append, List.foldl_cons,
      parseStep_skip _ b hb]
  · intro acts a ha
    refine ⟨(acts ++ [a]).foldl parseStep (initResult w),
      parse_response_mkInput _ _, ?_, ?_, ?_⟩
    all_goals rw [List.foldl_append, List.foldl_cons, List.foldl_nil]
    · intro t ht
      exact parseStep_text _ a t ha ht
    · intro hsa
      exact parseStep_actions _ a ha hsa
    · intro att tl hatt hct
      exact parseStep_card _ a att tl ha hatt hct
  · intro a₁ a₂ t₁ t₂ h₁ h₂ ht₁ ht₂
    refine ⟨[a₁, a₂].foldl parseStep (initResult w),
      parse_response_mkInput _ _, ?_⟩
    rw [List.foldl_cons, List.foldl_cons, List.foldl_nil]
    exact parseStep_text _ a₂ t₂ h₂ ht₂

/-- C2 witness: the last-write-wins clause applied to two concrete bot
replies with different text. -/
theorem parse_response_filter_last_write_wins_witness :
    botMessageFilter botReply = true ∧ botMessageFilter botReply2 = true ∧
    botReply.text = some "hello" ∧ botReply2.text = some "second" ∧
    ∃ r, parse_response (mkInput [botReply, botReply2] (some "w9")) = .ok r ∧
      r.text = "second" := by
  refine ⟨by decide, by decide, rfl, rfl, ?_⟩
  exact (parse_response_filter_last_write_wins (some "w9")).2.2 botReply botReply2
    "hello" "second" (by decide) (by decide) rfl rfl

/-- C1: the polling loop of post_message_and_poll ends exactly at the
first fetched batch containing a completion signal (a DynamicPlanFinished
event activity or a bot message activity): with every earlier batch free
of signals and batch d carrying one, the returned data is that entire
batch, and exactly one get_activities call was made per batch up to and
including d. -/
theorem post_message_and_poll_first_completion_batch
    (agentId agentName agentDescr conv message cid : String) (w : Option String)
    (md : Option (List (String × Json)))
    (pre rest : List GetActivitiesResponse) (d : GetActivitiesResponse)
    (hpre : ∀ x ∈ pre, hasCompletion x = false)
    (hd : hasCompletion d = true) :
    (post_message_and_poll ⟨agentId, agentName, agentDescr, some ⟨conv, pre ++ d :: rest⟩⟩
        message cid w md).2 =
      .ok ⟨some d, updWatermark (wAfter w pre) d⟩ ∧
    (post_message_and_poll ⟨agentId, agentName, agentDescr, some ⟨conv, pre ++ d :: rest⟩⟩
        message cid w md).1.countP isGetCall = pre.length + 1 := by
  obtain ⟨h1, h2, h3⟩ := post_message_and_poll_outcome agentId agentName agentDescr
    conv message cid w md pre rest d hpre hd
  refine ⟨h1, ?_⟩
  rw [h2, List.countP_cons_of_neg isGetCall _ (by simp [isGetCall]),
    List.countP_eq_length.mpr (pollLoop_trace_get cid _ w), h3]

/-- C1 witness: one quiet batch followed by a completing bot message
batch; the loop returns the second batch whole after two fetches. -/
theorem post_message_and_poll_first_completion_batch_witness :
    (∀ x ∈ [quietResponse], hasCompletion x = false) ∧
    hasCompletion demoResponse = true ∧
    (post_message_and_poll ⟨"a", "n", "d", some ⟨"c0", [quietResponse, demoResponse]⟩⟩
        "hi" "c0" none none).2 =
      .ok ⟨some demoResponse, updWatermark (wAfter none [quietResponse]) demoResponse⟩ ∧
    (post_message_and_poll ⟨"a", "n", "d", some ⟨"c0", [quietResponse, demoResponse]⟩⟩
        "hi" "c0" none none).1.countP isGetCall = 1 + 1 := by
  have h := post_message_and_poll_first_completion_batch "a" "n" "d" "c0" "hi" "c0"
    none none [quietResponse] [] demoResponse
    (by intro x hx; rw [List.mem_singleton] at hx; subst hx; decide) (by decide)
  exact ⟨by intro x hx; rw [List.mem_singleton] at hx; subst hx; decide,
    by decide, h.1, h.2⟩

/-- C4: after each fetch of post_message_and_poll's polling loop the
cursor equals the watermark of the most recent response that carried one,
or the initially supplied watermark when none did so far; a response
without a "watermark" field leaves the cursor unchanged; and the final
watermark returned with the completing batch is the last carried one over
all processed responses. -/
theorem post_message_and_poll_watermark_invariant
    (agentId agentName agentDescr conv message cid : String) (w : Option String)
    (md : Option (List (String × Json)))
    (pre rest : List GetActivitiesResponse) (d : GetActivitiesResponse)
    (hpre : ∀ x ∈ pre, hasCompletion x = false)
    (hd : hasCompletion d = true) :
    (post_message_and_poll ⟨agentId, agentName, agentDescr, some ⟨conv, pre ++ d :: rest⟩⟩
        message cid w md).2 =
      .ok ⟨some d,
        match lastCarried (pre ++ [d]) with
        | some v => some v
        | none => w⟩ ∧
    (∀ w₀ : Option String, wAfter w₀ pre =
      match lastCarried pre with
      | some v => some v
      | none => w₀) ∧
    (∀ (w₀ : Option String) (d₀ : GetActivitiesResponse),
      d₀.watermark = none → updWatermark w₀ d₀ = w₀) := by
  refine ⟨?_, fun w₀ => wAfter_eq_lastCarried pre w₀,
    fun w₀ d₀ h₀ => by simp [updWatermark, h₀]⟩
  obtain ⟨h1, _, _⟩ := post_message_and_poll_outcome agentId agentName agentDescr
    conv message cid w md pre rest d hpre hd
  rw [h1]
  have hw : updWatermark (wAfter w pre) d = wAfter w (pre ++ [d]) := by
    simp [wAfter, List.foldl_append]
  rw [hw, wAfter_eq_lastCarried]

/-- C4 witness: a quiet batch carrying watermark "w0" followed by the
completing batch carrying "w1"; the final cursor is "w1", the cursor
after the quiet prefix is "w0", and a watermark-free response leaves any
cursor untouched. -/
theorem post_message_and_poll_watermark_invariant_witness :
    (∀ x ∈ [GetActivitiesResponse.mk (some "w0") (some [])], hasCompletion x = false) ∧
    hasCompletion demoResponse = true ∧
    (post_message_and_poll
        ⟨"a", "n", "d", some ⟨"c0", [GetActivitiesResponse.mk (some "w0") (some []),
          demoResponse]⟩⟩ "hi" "c0" none none).2 =
      .ok ⟨some demoResponse,
        match lastCarried ([GetActivitiesResponse.mk (some "w0") (some [])] ++ [demoResponse]) with
        | some v => some v
        | none => none⟩ ∧
    (wAfter (some "init") [GetActivitiesResponse.mk (some "w0") (some [])] =
      match lastCarried [GetActivitiesResponse.mk (some "w0") (some [])] with
      | some v => some v
      | none => some "init") ∧
    updWatermark (some "w0") quietResponse = some "w0" := by
  have h := post_message_and_poll_watermark_invariant "a" "n" "d" "c0" "hi" "c0"
    none none [GetActivitiesResponse.mk (some "w0") (some [])] [] demoResponse
    (by intro x hx; rw [List.mem_singleton] at hx; subst hx; decide) (by decide)
  exact ⟨by intro x hx; rw [List.mem_singleton] at hx; subst hx; decide,
    by decide, h.1, h.2.1 (some "init"), h.2.2 (some "w0") quietResponse rfl⟩

/-- C9: when the caller supplies no watermark and no response processed
before loop exit carries a "watermark" field, post_message_and_poll
returns watermark None, and the parsed result of query carries watermark
None as well, rather than any string. -/
theorem watermark_none_when_never_carried
    (agentId agentName agentDescr conv message cid : String) (hcid : cid ≠ "")
    (md : Option (List (String × Json)))
    (pre rest : List GetActivitiesResponse) (d : GetActivitiesResponse)
    (hpre : ∀ x ∈ pre, hasCompletion x = false)
    (hprew : ∀ x ∈ pre, x.watermark = none)
    (hd : hasCompletion d = true) (hdw : d.watermark = none) :
    (post_message_and_poll ⟨agentId, agentName, agentDescr, some ⟨conv, pre ++ d :: rest⟩⟩
        message cid none md).2 = .ok ⟨some d, none⟩ ∧
    ∃ r, (query ⟨agentId, agentName, agentDescr, some ⟨conv, pre ++ d :: rest⟩⟩
        message (some cid) none md).2 = .ok r ∧ r.watermark = none := by
  obtain ⟨h1, _, _⟩ := post_message_and_poll_outcome agentId agentName agentDescr
    conv message cid none md pre rest d hpre hd
  have hwa : wAfter none pre = none := by
    rw [wAfter_eq_lastCarried, lastCarried_none pre hprew]
  have hupd : updWatermark (wAfter none pre) d = none := by
    rw [hwa]
    simp [updWatermark, hdw]
  rw [hupd] at h1
  refine ⟨h1, ?_⟩
  rw [query_truthy_cid _ message cid hcid none md]
  obtain ⟨acts, hacts⟩ : ∃ acts, d.activities = some acts := by
    cases hact : d.activities with
    | none =>
      exact absurd hd (by simp [hasCompletion, hact])
    | some acts => exact ⟨acts, rfl⟩
  have hparse : parse_response (some ⟨some d, none⟩) =
      .ok (acts.foldl parseStep (initResult none)) := by
    rw [parse_response_some]
    simp [emptyData, hacts]
  refine ⟨⟨(acts.foldl parseStep (initResult none)).text,
    (acts.foldl parseStep (initResult none)).adaptive_card,
    (acts.foldl parseStep (initResult none)).suggested_actions,
    (acts.foldl parseStep (initResult none)).watermark, cid⟩, ?_, ?_⟩
  · rw [h1]
    simp only [hparse]
  · simp [parse_foldl_watermark, initResult]

/-- C9 witness: a watermark-free quiet batch followed by a watermark-free
completing bot reply; both the poll result and the query result carry
watermark None. -/
theorem watermark_none_when_never_carried_witness :
    (∀ x ∈ [quietResponse], hasCompletion x = false) ∧
    (∀ x ∈ [quietResponse], x.watermark = none) ∧
    hasCompletion (GetActivitiesResponse.mk none (some [botReply])) = true ∧
    (post_message_and_poll ⟨"a", "n", "d", some ⟨"c0",
        [quietResponse, GetActivitiesResponse.mk none (some [botReply])]⟩⟩
        "hi" "c0" none none).2 =
      .ok ⟨some (GetActivitiesResponse.mk none (some [botReply])), none⟩ ∧
    ∃ r, (query ⟨"a", "n", "d", some ⟨"c0",
        [quietResponse, GetActivitiesResponse.mk none (some [botReply])]⟩⟩
        "hi" (some "c0") none none).2 = .ok r ∧ r.watermark = none := by
  have h := watermark_none_when_never_carried "a" "n" "d" "c0" "hi" "c0"
    (by decide) none [quietResponse] [] (GetActivitiesResponse.mk none (some [botReply]))
    (by intro x hx; rw [List.mem_singleton] at hx; subst hx; decide)
    (by intro x hx; rw [List.mem_singleton] at hx; subst hx; decide)
    (by decide) rfl
  exact ⟨by intro x hx; rw [List.mem_singleton] at hx; subst hx; decide,
    by intro x hx; rw [List.mem_singleton] at hx; subst hx; rfl,
    by decide, h.1, h.2⟩

/-- C6: with no wire client configured, query fails with the
NotInitialized condition and no wire primitive (start_session,
post_activity, get_activities) is invoked: the trace is empty. -/
theorem query_not_initialized (agent : CopilotAgent)
    (hagent : agent.directline_client = none) (message : String)
    (conversation_id watermark : Option String)
    (md : Option (List (String × Json))) :
    query agent message conversation_id watermark md =
      ([], .error .notInitialized) := by
  unfold query start_conversation post_message_and_poll
  rw [hagent]
  cases hct : strTruthy conversation_id <;> simp [hct]

/-- C6 witness: a concrete agent without a client fails with
NotInitialized and an empty trace, with and without a supplied
conversation id. -/
theorem query_not_initialized_witness :
    (CopilotAgent.mk "a" "n" "d" none).directline_client = none ∧
    query (CopilotAgent.mk "a" "n" "d" none) "hi" (some "c9") none none =
      ([], .error .notInitialized) ∧
    query (CopilotAgent.mk "a" "n" "d" none) "hi" none none none =
      ([], .error .notInitialized) :=
  ⟨rfl, query_not_initialized _ rfl "hi" (some "c9") none none,
    query_not_initialized _ rfl "hi" none none none⟩

/-- C7 counterexample: the conversation id is supplied as the empty
string, yet query invokes the session-start primitive and attaches the
freshly minted id "minted-id" rather than the supplied one, because the
branch test is Python truthiness. -/
theorem query_empty_conversation_id_mints :
    Prim.start_session ∈ (query demoAgent "hi" (some "") none none).1 ∧
    (query demoAgent "hi" (some "") none none).2 =
      .ok ⟨"hello", none, [], some "w1", "minted-id"⟩ ∧
    ("minted-id" : String) ≠ "" := by
  refine ⟨by decide, ?_, by decide⟩
  rfl

/-- C7 amended: for every query call supplying a non-empty
conversation_id, the session-start primitive is not invoked and the
conversation id attached to the returned result equals the supplied one;
a new conversation identifier is minted only when conversation_id is
absent or empty. -/
theorem query_supplied_nonempty_conversation_id
    (agent : CopilotAgent) (message : String) (cid : String) (hcid : cid ≠ "")
    (w : Option String) (md : Option (List (String × Json))) :
    Prim.start_session ∉ (query agent message (some cid) w md).1 ∧
    (∀ r, (query agent message (some cid) w md).2 = .ok r →
      r.conversation_id = cid) := by
  rw [query_truthy_cid agent message cid hcid w md]
  constructor
  · cases hc : agent.directline_client with
    | none =>
      unfold post_message_and_poll
      rw [hc]
      simp
    | some c =>
      unfold post_message_and_poll
      rw [hc]
      intro hmem
      simp only [List.mem_cons] at hmem
      rcases hmem with h | h
      · exact absurd h (by simp)
      · have := pollLoop_trace_get cid c.responses w _ h
        simp [isGetCall] at this
  · intro r hr
    rcases h2 : (post_message_and_poll agent message cid w md).2 with pr | e | _ <;>
      rw [h2] at hr <;> simp only at hr
    · rcases h3 : parse_response (some ⟨pr.data, pr.watermark⟩) with e | p <;>
        rw [h3] at hr <;> simp only at hr
      · exact absurd hr (by simp)
      · have hinj := Outcome.ok.inj hr
        rw [← hinj]
    · exact absurd hr (by simp)
    · exact absurd hr (by simp)

/-- C7 amended witness: with the non-empty id "c9" supplied, the demo
agent's query makes no session-start call and returns "c9" as the
conversation id. -/
theorem query_supplied_nonempty_conversation_id_witness :
    ("c9" : String) ≠ "" ∧
    Prim.start_session ∉ (query demoAgent "hi" (some "c9") none none).1 ∧
    (∀ r, (query demoAgent "hi" (some "c9") none none).2 = .ok r →
      r.conversation_id = "c9") := by
  refine ⟨by decide, ?_, ?_⟩
  · exact (query_supplied_nonempty_conversation_id demoAgent "hi" "c9"
      (by decide) none none).1
  · exact (query_supplied_nonempty_conversation_id demoAgent "hi" "c9"
      (by decide) none none).2

end CopilotStudio
